import Mathlib

/-!
Shallow embedding of the neural-tabula-rasa equation checker
(`src/binom_fns.py`, `src/two_step_disjoint.py`, `src/two_step_shared.py`,
`src/one_step_shared.py`).

Conventions of the embedding:
* Python floats are modelled as exact rationals (`ℚ`); float addition in the
  accumulation loops becomes `Finset.sum`.
* `scipy.stats.binom.sf(k-1, count, p)` is `B count p k = 1 - CDF (⌊k-1⌋)`,
  where the CDF at a negative argument is `0` and otherwise sums the first
  `⌊k-1⌋+1` point masses.  Fractional `count`/threshold arguments (the source
  passes `r/2`, `r/10`, `3r/2`, `2r/3`, …) are handled by flooring, the
  convention the backend uses for thresholds; a negative `count` is clamped
  to `0` (the spec leaves non-integer argument handling implementation
  defined and asks for one documented convention).
* Python `round` is round-half-to-even (banker's rounding), embedded exactly
  as `pyRound`; `round(x, d)` is `roundTo d x`.
* `numpy.sqrt`-based band checks `expect - 2√expect ≤ r ≤ expect + 2√expect`
  are embedded in the equivalent exact form `(r - expect)² ≤ 4·expect`
  (equivalent for `expect ≥ 0`; for `expect < 0` `np.sqrt` yields NaN, every
  NaN comparison is false, and the squared form is false as well).
* `str(a)[:x] == str(b)[:x]` is embedded by comparing the leading characters
  of a decimal rendering (sign, integer digits, decimal point, six fixed
  fractional digits for floats; plain digits for ints).
-/

open Finset

/-- Point mass of a binomial distribution: `P(X = j)` for `X ~ Binom(m, p)`,
`scipy.stats.binom.pmf(j, m, p)`. -/
def binomPMF (m : ℕ) (p : ℚ) (j : ℕ) : ℚ :=
  (m.choose j : ℚ) * p ^ j * (1 - p) ^ (m - j)

/-- Binomial cumulative distribution at an integer cut `x`:
`P(X ≤ x)`, zero for `x < 0` (`scipy.stats.binom.cdf`). -/
def binomCDF (m : ℕ) (p : ℚ) (x : ℤ) : ℚ :=
  if x < 0 then 0 else ∑ j ∈ range (x.toNat + 1), binomPMF m p j

/-- `B(count, p, k) = binom.sf(k-1, count, p)` from `src/binom_fns.py`:
the survival probability `P(X ≥ k)` computed as `1 - CDF(k-1)`, with the
flooring convention described in the module docstring. -/
def B (count p k : ℚ) : ℚ :=
  1 - binomCDF (Int.toNat ⌊count⌋) p ⌊k - 1⌋

/-- `T(count, p, j) = binom.pmf(j, count, p)` from `src/binom_fns.py`. -/
def T (count p : ℚ) (j : ℕ) : ℚ :=
  binomPMF (Int.toNat ⌊count⌋) p j

/-- Decimal characters of a Python float for the string-prefix comparison:
`-1` encodes the minus sign, `-2` the decimal point, and the model renders
six fixed fractional digits. -/
def floatChars (q : ℚ) : List ℤ :=
  let ip : ℕ := Int.toNat ⌊|q|⌋
  let ds : List ℕ := (Nat.digits 10 ip).reverse
  let intPart : List ℤ := (if ds = [] then [0] else ds).map Int.ofNat
  let fr : ℕ := Int.toNat ⌊(|q| - ip) * 10 ^ 6⌋
  let fds : List ℕ := Nat.digits 10 fr
  let fracPart : List ℤ :=
    (List.replicate (6 - fds.length) 0 ++ fds.reverse).map Int.ofNat
  (if q < 0 then [-1] else []) ++ intPart ++ [-2] ++ fracPart

/-- Decimal characters of a Python int (`str(r)`). -/
def natChars (r : ℕ) : List ℤ :=
  let ds : List ℕ := (Nat.digits 10 r).reverse
  (if ds = [] then [0] else ds).map Int.ofNat

/-- `compare_first_x_digits(a, b, x) = str(a)[:x] == str(b)[:x]` from
`src/binom_fns.py`, at its call type (a float against an int). -/
def compare_first_x_digits (a : ℚ) (b : ℕ) (x : ℕ) : Bool :=
  (floatChars a).take x == (natChars b).take x

/-- Python `round(q)`: nearest integer, ties to the even neighbour. -/
def pyRound (q : ℚ) : ℤ :=
  if q - (⌊q⌋ : ℚ) < 1/2 then ⌊q⌋
  else if 1/2 < q - (⌊q⌋ : ℚ) then ⌊q⌋ + 1
  else if Even ⌊q⌋ then ⌊q⌋ else ⌊q⌋ + 1

/-- Python `round(q, d)`: round to `d` decimal places, ties to even. -/
def roundTo (d : ℕ) (q : ℚ) : ℚ :=
  (pyRound (q * 10 ^ d) : ℚ) / 10 ^ d

/-- The band test `r >= expect - 2*np.sqrt(expect) and
r <= expect + 2*np.sqrt(expect)` in exact form `(r - expect)² ≤ 4·expect`
(equivalent for `expect ≥ 0`; both false for `expect < 0`, where `np.sqrt`
is NaN and NaN comparisons are false). -/
def sqrt_band (expect r : ℚ) : Bool :=
  decide ((r - expect) ^ 2 ≤ 4 * expect)

/-- Derived count `r′ = round(r²/n)`. -/
def r_dash_of (n r : ℕ) : ℤ := pyRound ((r : ℚ) ^ 2 / (n : ℚ))

/-- Derived count `r″ = round(r³/n²)`. -/
def r_ddash_of (n r : ℕ) : ℤ := pyRound ((r : ℚ) ^ 3 / (n : ℚ) ^ 2)

/-- Derived count `r^ = r′ - r″`. -/
def r_caret_of (n r : ℕ) : ℤ := r_dash_of n r - r_ddash_of n r

/-- Derived count `r# = r - 2r′ + r″`. -/
def r_sharp_of (n r : ℕ) : ℤ := (r : ℤ) - 2 * r_dash_of n r + r_ddash_of n r

/-! Two-step, disjoint representation (`src/two_step_disjoint.py`). -/

/-- The `expect` of `check_eq_2_1`: `round(n * B(r, p, k)**2, 2)`. -/
def eq_2_1_expect (n : ℕ) (p : ℚ) (k r : ℕ) : ℚ :=
  roundTo 2 ((n : ℚ) * (B r p k) ^ 2)

/-- `check_eq_2_1(n, p, k, r)` from `src/two_step_disjoint.py`. -/
def check_eq_2_1 (n : ℕ) (p : ℚ) (k r : ℕ) : Bool :=
  if n < 10 ^ 6 then sqrt_band (eq_2_1_expect n p k r) r
  else compare_first_x_digits (eq_2_1_expect n p k r) r 2

/-- The `expect` of `check_eq_2_2`:
`B(n, B(r/2, p, k) * B(r, p, k), r/10)`. -/
def eq_2_2_expect (n : ℕ) (p : ℚ) (k r : ℕ) : ℚ :=
  B n (B ((r : ℚ) / 2) p k * B r p k) ((r : ℚ) / 10)

/-- `check_eq_2_2(n, p, k, r)` from `src/two_step_disjoint.py`. -/
def check_eq_2_2 (n : ℕ) (p : ℚ) (k r : ℕ) : Bool :=
  decide (roundTo 6 (eq_2_2_expect n p k r) = 0)

/-- The `expect` of `check_eq_2_3`:
`B(n, (1 - B(r, p, k)) * B(r, p, k)**2, 2*r/3)`. -/
def eq_2_3_expect (n : ℕ) (p : ℚ) (k r : ℕ) : ℚ :=
  B n ((1 - B r p k) * (B r p k) ^ 2) (2 * (r : ℚ) / 3)

/-- `check_eq_2_3(n, p, k, r)` from `src/two_step_disjoint.py`. -/
def check_eq_2_3 (n : ℕ) (p : ℚ) (k r : ℕ) : Bool :=
  decide (roundTo 6 (eq_2_3_expect n p k r) = 1)

/-- The `Y` of `check_eq_2_4`: `B(n, p * B(r, p, k), k)`. -/
def eq_2_4_Y (n : ℕ) (p : ℚ) (k r : ℕ) : ℚ :=
  B n (p * B r p k) k

/-- `check_eq_2_4(n, p, k, r)` from `src/two_step_disjoint.py`. -/
def check_eq_2_4 (n : ℕ) (p : ℚ) (k r : ℕ) : Bool :=
  decide (roundTo 6 (eq_2_4_Y n p k r) = 1)

/-- The `expect` of `check_eq_2_5`:
`B(r, B(n, p * B(r/2, p, k), k), r/2)`. -/
def eq_2_5_expect (n : ℕ) (p : ℚ) (k r : ℕ) : ℚ :=
  B r (B n (p * B ((r : ℚ) / 2) p k) k) ((r : ℚ) / 2)

/-- `check_eq_2_5(n, p, k, r)` from `src/two_step_disjoint.py`. -/
def check_eq_2_5 (n : ℕ) (p : ℚ) (k r : ℕ) : Bool :=
  decide (roundTo 6 (eq_2_5_expect n p k r) = 0)

/-- The `approx` of `check_eq_2_6`:
`B(r, B(n, p_dash * B(r, p, k), k), r/2)` for
`p_dash = p * (1 - (1 - B(r, p, k))**t)`. -/
def eq_2_6_approx (n : ℕ) (p : ℚ) (k r t : ℕ) : ℚ :=
  B r (B n (p * (1 - (1 - B r p k) ^ t) * B r p k) k) ((r : ℚ) / 2)

/-- `check_eq_2_6(n, p, k, r, t)` from `src/two_step_disjoint.py`. -/
def check_eq_2_6 (n : ℕ) (p : ℚ) (k r t : ℕ) : Bool :=
  decide (roundTo 6 (eq_2_6_approx n p k r t) = 0)

/-! One-step mechanisms, shared representation (`src/one_step_shared.py`). -/

/-- The `expect` of `check_eq_2_1_ddash`: `round(n * B(2*r - r', p, k_m), 2)`
for `r' = round(r**2 / n)`. -/
def eq_2_1_ddash_expect (n : ℕ) (p : ℚ) (k_m r : ℕ) : ℚ :=
  roundTo 2 ((n : ℚ) * B ((2 * r : ℚ) - (r_dash_of n r : ℚ)) p k_m)

/-- `check_eq_2_1_ddash(n, p, k_m, r)` from `src/one_step_shared.py`. -/
def check_eq_2_1_ddash (n : ℕ) (p : ℚ) (k_m r : ℕ) : Bool :=
  if n < 10 ^ 6 then sqrt_band (eq_2_1_ddash_expect n p k_m r) r
  else compare_first_x_digits (eq_2_1_ddash_expect n p k_m r) r 2

/-- The `expect` of `check_eq_2_2_ddash`: `B(n, B(3*r/2, p, k_m), r/10)`. -/
def eq_2_2_ddash_expect (n : ℕ) (p : ℚ) (k_m r : ℕ) : ℚ :=
  B n (B (3 * (r : ℚ) / 2) p k_m) ((r : ℚ) / 10)

/-- `check_eq_2_2_ddash(n, p, k_m, r)` from `src/one_step_shared.py`. -/
def check_eq_2_2_ddash (n : ℕ) (p : ℚ) (k_m r : ℕ) : Bool :=
  decide (roundTo 6 (eq_2_2_ddash_expect n p k_m r) = 0)

/-- `eq_2_3_ddash_p_dash_disjoint(n, p, k_m, r)` from
`src/one_step_shared.py`: the single-level sum over `s ∈ range(0, k_m)`. -/
def eq_2_3_ddash_p_dash_disjoint (n : ℕ) (p : ℚ) (k_m r : ℕ) : ℚ :=
  ∑ s ∈ range k_m,
    T r p s * B r p ((k_m : ℚ) - s) * (1 - B r p ((k_m : ℚ) - s))

/-- `eq_2_3_ddash_p_dash_shared(n, p, k_m, r)` from `src/one_step_shared.py`:
the five-level nested accumulation with exclusive bounds
`k_m`, `k_m - s`, `k_m - i - s`, `k_m - i - j - s`, `k_m - i - j - m - s`;
`n` enters only through the derived counts `r′, r″, r^, r#`. -/
def eq_2_3_ddash_p_dash_shared (n : ℕ) (p : ℚ) (k_m r : ℕ) : ℚ :=
  ∑ s ∈ range k_m, T (r_sharp_of n r : ℚ) p s *
    (∑ i ∈ range (k_m - s), T (r_caret_of n r : ℚ) p i *
      (∑ j ∈ range (k_m - i - s), T (r_caret_of n r : ℚ) p j *
        (∑ m ∈ range (k_m - i - j - s), T (r_ddash_of n r : ℚ) p m *
          (∑ l ∈ range (k_m - i - j - m - s), T (r_caret_of n r : ℚ) p l *
            (B (r_sharp_of n r : ℚ) p ((k_m : ℚ) - s - i - j - l - m) *
              (1 - B (r_sharp_of n r : ℚ) p
                ((k_m : ℚ) - s - i - j - l - m)))))))

/-- The `expect` of `check_eq_2_3_ddash`: `B(n, p_dash, 2*r/3)` where
`p_dash` is the shared or the disjoint sum according to `complete_share`. -/
def eq_2_3_ddash_expect (n : ℕ) (p : ℚ) (k_m r : ℕ)
    (complete_share : Bool) : ℚ :=
  B n (if complete_share then eq_2_3_ddash_p_dash_shared n p k_m r
       else eq_2_3_ddash_p_dash_disjoint n p k_m r) (2 * (r : ℚ) / 3)

/-- `check_eq_2_3_ddash(n, p, k_m, r, complete_share)` from
`src/one_step_shared.py`. -/
def check_eq_2_3_ddash (n : ℕ) (p : ℚ) (k_m r : ℕ)
    (complete_share : Bool) : Bool :=
  decide (roundTo 6 (eq_2_3_ddash_expect n p k_m r complete_share) = 1)

/-- The `Y` of `check_eq_2_4_ddash`: `B(n, p * B(r, p, k_a), k_a)`. -/
def eq_2_4_ddash_Y (n : ℕ) (p : ℚ) (k_a r : ℕ) : ℚ :=
  B n (p * B r p k_a) k_a

/-- `check_eq_2_4_ddash(n, p, k_a, r)` from `src/one_step_shared.py`. -/
def check_eq_2_4_ddash (n : ℕ) (p : ℚ) (k_a r : ℕ) : Bool :=
  decide (roundTo 6 (eq_2_4_ddash_Y n p k_a r) = 1)

/-- The `expect` of `check_eq_2_5_ddash`:
`B(r, B(n, p * B(r/2, p, k_a), k_a), r/2)`. -/
def eq_2_5_ddash_expect (n : ℕ) (p : ℚ) (k_a r : ℕ) : ℚ :=
  B r (B n (p * B ((r : ℚ) / 2) p k_a) k_a) ((r : ℚ) / 2)

/-- `check_eq_2_5_ddash(n, p, k_a, r)` from `src/one_step_shared.py`. -/
def check_eq_2_5_ddash (n : ℕ) (p : ℚ) (k_a r : ℕ) : Bool :=
  decide (roundTo 6 (eq_2_5_ddash_expect n p k_a r) = 0)

/-- The `expect` of `check_eq_2_6_ddash`:
`B(r, B(n, p * (B(r', p, k_a) + total), k_a), r/2)` where `total` sums
`T(r', p, i) * B(r - r', p, k_a - i)**2` over `i ∈ range(0, k_a)`. -/
def eq_2_6_ddash_expect (n : ℕ) (p : ℚ) (k_a r : ℕ) : ℚ :=
  B r (B n (p * (B (r_dash_of n r : ℚ) p k_a +
    ∑ i ∈ range k_a, T (r_dash_of n r : ℚ) p i *
      (B ((r : ℚ) - (r_dash_of n r : ℚ)) p ((k_a : ℚ) - i)) ^ 2)) k_a)
    ((r : ℚ) / 2)

/-- `check_eq_2_6_ddash(n, p, k_a, r)` from `src/one_step_shared.py`. -/
def check_eq_2_6_ddash (n : ℕ) (p : ℚ) (k_a r : ℕ) : Bool :=
  decide (roundTo 6 (eq_2_6_ddash_expect n p k_a r) = 0)

/-! Two-step mechanisms, shared representation (`src/two_step_shared.py`). -/

/-- The `p_dash` of `check_eq_2_1_dash` (and of `check_eq_2_6_dash`):
`B(r', p, k) + Σ_{i<k} T(r', p, i) * B(r - r', p, k - i)**2`. -/
def eq_2_1_dash_p_dash (n : ℕ) (p : ℚ) (k r : ℕ) : ℚ :=
  B (r_dash_of n r : ℚ) p k +
    ∑ i ∈ range k, T (r_dash_of n r : ℚ) p i *
      (B ((r : ℚ) - (r_dash_of n r : ℚ)) p ((k : ℚ) - i)) ^ 2

/-- The `expect` of `check_eq_2_1_dash`: `round(n * p_dash, 6)`. -/
def eq_2_1_dash_expect (n : ℕ) (p : ℚ) (k r : ℕ) : ℚ :=
  roundTo 6 ((n : ℚ) * eq_2_1_dash_p_dash n p k r)

/-- `check_eq_2_1_dash(n, p, k, r, c_1)` from `src/two_step_shared.py`:
accepts `r` within the band `expect ± expect * (c_1 - 1)`. -/
def check_eq_2_1_dash (n : ℕ) (p : ℚ) (k r : ℕ) (c_1 : ℚ) : Bool :=
  decide ((r : ℚ) ≥ eq_2_1_dash_expect n p k r -
      eq_2_1_dash_expect n p k r * (c_1 - 1) ∧
    (r : ℚ) ≤ eq_2_1_dash_expect n p k r +
      eq_2_1_dash_expect n p k r * (c_1 - 1))

/-- The `expect` of `check_eq_2_2_dash`: `B(n, p_dash, r/10)` where
`p_dash = B(r', p, k) + Σ_{i<k} T(r', p, i) * B(r - r', p, k - i) *
B(r/2 - r', p, k - i)`. -/
def eq_2_2_dash_expect (n : ℕ) (p : ℚ) (k r : ℕ) : ℚ :=
  B n (B (r_dash_of n r : ℚ) p k +
    ∑ i ∈ range k, T (r_dash_of n r : ℚ) p i *
      B ((r : ℚ) - (r_dash_of n r : ℚ)) p ((k : ℚ) - i) *
      B ((r : ℚ) / 2 - (r_dash_of n r : ℚ)) p ((k : ℚ) - i)) ((r : ℚ) / 10)

/-- `check_eq_2_2_dash(n, p, k, r)` from `src/two_step_shared.py`. -/
def check_eq_2_2_dash (n : ℕ) (p : ℚ) (k r : ℕ) : Bool :=
  decide (roundTo 6 (eq_2_2_dash_expect n p k r) = 0)

/-- The `p_dash` of `check_eq_2_3_dash`: the four-level nested accumulation
with exclusive bounds `k+1`, `k-i+1`, `k-i-j+1`, `k-i-j-l+1` and the literal
inner count `r - 2r' + r''` of the source. -/
def eq_2_3_dash_p_dash (n : ℕ) (p : ℚ) (k r : ℕ) : ℚ :=
  ∑ i ∈ range (k + 1), T (r_caret_of n r : ℚ) p i *
    (∑ j ∈ range (k - i + 1), T (r_caret_of n r : ℚ) p j *
      (∑ l ∈ range (k - i - j + 1), T (r_caret_of n r : ℚ) p l *
        (∑ m ∈ range (k - i - j - l + 1), T (r_ddash_of n r : ℚ) p m *
          (B ((r : ℚ) - 2 * (r_dash_of n r : ℚ) + (r_ddash_of n r : ℚ)) p
              ((k : ℚ) - i - j - m) *
            B ((r : ℚ) - 2 * (r_dash_of n r : ℚ) + (r_ddash_of n r : ℚ)) p
              ((k : ℚ) - j - l - m) *
            (1 - B ((r : ℚ) - 2 * (r_dash_of n r : ℚ) +
              (r_ddash_of n r : ℚ)) p ((k : ℚ) - i - l - m))))))

/-- The `expect` of `check_eq_2_3_dash`: `B(n, p_dash, 2*r/3)`. -/
def eq_2_3_dash_expect (n : ℕ) (p : ℚ) (k r : ℕ) : ℚ :=
  B n (eq_2_3_dash_p_dash n p k r) (2 * (r : ℚ) / 3)

/-- `check_eq_2_3_dash(n, p, k, r)` from `src/two_step_shared.py`; note the
rounding precision is 5 here, not 6. -/
def check_eq_2_3_dash (n : ℕ) (p : ℚ) (k r : ℕ) : Bool :=
  decide (roundTo 5 (eq_2_3_dash_expect n p k r) = 1)

/-- `check_eq_2_4_dash(n, p, k, r)` from `src/two_step_shared.py`:
delegates to `check_eq_2_4`. -/
def check_eq_2_4_dash (n : ℕ) (p : ℚ) (k r : ℕ) : Bool :=
  check_eq_2_4 n p k r

/-- `check_eq_2_5_dash(n, p, k, r)` from `src/two_step_shared.py`:
delegates to `check_eq_2_5`. -/
def check_eq_2_5_dash (n : ℕ) (p : ℚ) (k r : ℕ) : Bool :=
  check_eq_2_5 n p k r

/-- The `expect` of `check_eq_2_6_dash`: `B(r, p_dash * B(n, p_dash, k), r/2)`
with the same `p_dash` as `check_eq_2_1_dash`. -/
def eq_2_6_dash_expect (n : ℕ) (p : ℚ) (k r : ℕ) : ℚ :=
  B r (eq_2_1_dash_p_dash n p k r * B n (eq_2_1_dash_p_dash n p k r) k)
    ((r : ℚ) / 2)

/-- `check_eq_2_6_dash(n, p, k, r, t)` from `src/two_step_shared.py`
(its `t` parameter is unused in the source body as well). -/
def check_eq_2_6_dash (n : ℕ) (p : ℚ) (k r t : ℕ) : Bool :=
  decide (roundTo 6 (eq_2_6_dash_expect n p k r) = 0)

/-! Basic facts about the binomial primitives. -/

/-- The point mass vanishes above the trial count. -/
theorem binomPMF_eq_zero {m j : ℕ} (h : m < j) (p : ℚ) : binomPMF m p j = 0 := by
  unfold binomPMF
  rw [Nat.choose_eq_zero_of_lt h]
  simp

/-- Point masses are nonnegative for `p ∈ [0, 1]`. -/
theorem binomPMF_nonneg {p : ℚ} (hp0 : 0 ≤ p) (hp1 : p ≤ 1) (m j : ℕ) :
    0 ≤ binomPMF m p j := by
  unfold binomPMF
  have h1 : (0 : ℚ) ≤ 1 - p := by linarith
  positivity

/-- Binomial theorem: the full point-mass sum is `1`, for every `p`. -/
theorem sum_binomPMF (m : ℕ) (p : ℚ) :
    ∑ j ∈ range (m + 1), binomPMF m p j = 1 := by
  have h := add_pow p (1 - p) m
  have h1 : p + (1 - p) = 1 := by ring
  rw [h1, one_pow] at h
  rw [show ∑ j ∈ range (m + 1), binomPMF m p j =
      ∑ j ∈ range (m + 1), p ^ j * (1 - p) ^ (m - j) * (m.choose j : ℚ) from
    Finset.sum_congr rfl fun j _ => by unfold binomPMF; ring]
  exact h.symm

/-- Splitting the full mass at any cut `N`: head plus tail is `1`. -/
theorem sum_binomPMF_split (m N : ℕ) (p : ℚ) :
    (∑ j ∈ range N, binomPMF m p j) + ∑ j ∈ Icc N m, binomPMF m p j = 1 := by
  rcases le_or_lt N (m + 1) with hN | hN
  · have : Icc N m = Ico N (m + 1) := by
      rw [Nat.Ico_succ_right]
    rw [this, Finset.range_eq_Ico,
      Finset.sum_Ico_consecutive _ (Nat.zero_le N) hN,
      ← Finset.range_eq_Ico]
    exact sum_binomPMF m p
  · have hIcc : Icc N m = ∅ := by
      apply Finset.Icc_eq_empty
      omega
    have hsub : ∑ j ∈ range N, binomPMF m p j =
        ∑ j ∈ range (m + 1), binomPMF m p j := by
      symm
      apply Finset.sum_subset
      · intro x hx
        simp only [Finset.mem_range] at hx ⊢
        omega
      · intro x _ hx
        simp only [Finset.mem_range, not_lt] at hx
        exact binomPMF_eq_zero (by omega) p
    rw [hIcc, hsub, Finset.sum_empty, add_zero]
    exact sum_binomPMF m p

/-- The CDF is nonnegative for `p ∈ [0, 1]`. -/
theorem binomCDF_nonneg {p : ℚ} (hp0 : 0 ≤ p) (hp1 : p ≤ 1) (m : ℕ) (x : ℤ) :
    0 ≤ binomCDF m p x := by
  unfold binomCDF
  split
  · exact le_refl 0
  · exact Finset.sum_nonneg fun j _ => binomPMF_nonneg hp0 hp1 m j

/-- The CDF is at most `1` for `p ∈ [0, 1]`. -/
theorem binomCDF_le_one {p : ℚ} (hp0 : 0 ≤ p) (hp1 : p ≤ 1) (m : ℕ) (x : ℤ) :
    binomCDF m p x ≤ 1 := by
  unfold binomCDF
  split
  · norm_num
  · have h := sum_binomPMF_split m (x.toNat + 1) p
    have htail : 0 ≤ ∑ j ∈ Icc (x.toNat + 1) m, binomPMF m p j :=
      Finset.sum_nonneg fun j _ => binomPMF_nonneg hp0 hp1 m j
    linarith

/-- `B` lands in `[0, 1]` for `p ∈ [0, 1]` (lower bound). -/
theorem B_nonneg {p : ℚ} (hp0 : 0 ≤ p) (hp1 : p ≤ 1) (count k : ℚ) :
    0 ≤ B count p k := by
  unfold B
  have := binomCDF_le_one hp0 hp1 (Int.toNat ⌊count⌋) ⌊k - 1⌋
  linarith

/-- `B` lands in `[0, 1]` for `p ∈ [0, 1]` (upper bound). -/
theorem B_le_one {p : ℚ} (hp0 : 0 ≤ p) (hp1 : p ≤ 1) (count k : ℚ) :
    B count p k ≤ 1 := by
  unfold B
  have := binomCDF_nonneg hp0 hp1 (Int.toNat ⌊count⌋) ⌊k - 1⌋
  linarith

/-- On natural-number arguments, `B` is the upper tail of the distribution:
`B(c, p, t) = Σ_{t ≤ j ≤ c} P(X = j)`, for every `p`. -/
theorem B_nat_eq_tail (c t : ℕ) (p : ℚ) :
    B (c : ℚ) p (t : ℚ) = ∑ j ∈ Icc t c, binomPMF c p j := by
  unfold B
  have hc : Int.toNat ⌊(c : ℚ)⌋ = c := by
    rw [Int.floor_natCast]
    exact Int.toNat_natCast c
  have hfl : ⌊(t : ℚ) - 1⌋ = (t : ℤ) - 1 := by
    rw [show ((t : ℚ) - 1 : ℚ) = ((t : ℤ) : ℚ) - ((1 : ℤ) : ℚ) by push_cast; ring,
      ← Int.cast_sub, Int.floor_intCast]
  rw [hc, hfl]
  rcases Nat.eq_zero_or_pos t with ht | ht
  · subst ht
    have hneg : ((0 : ℤ) - 1) < 0 := by norm_num
    unfold binomCDF
    rw [if_pos (by exact_mod_cast hneg)]
    have h := sum_binomPMF_split c 0 p
    rw [Finset.range_zero, Finset.sum_empty, zero_add] at h
    rw [h]
    ring
  · have hnonneg : ¬ ((t : ℤ) - 1 < 0) := by omega
    unfold binomCDF
    rw [if_neg hnonneg]
    have htn : ((t : ℤ) - 1).toNat + 1 = t := by omega
    rw [htn]
    have h := sum_binomPMF_split c t p
    linarith

/-- Weighted tail identity: `Σ_{k ≤ j ≤ m} C(j,k) · P(X = j) = C(m,k) · p^k`
(the expectation of the number of `k`-subsets of successes). -/
theorem sum_choose_mul_binomPMF (m k : ℕ) (p : ℚ) (hkm : k ≤ m) :
    ∑ j ∈ Icc k m, (j.choose k : ℚ) * binomPMF m p j =
      (m.choose k : ℚ) * p ^ k := by
  have hstep : ∀ j ∈ Icc k m,
      (j.choose k : ℚ) * binomPMF m p j =
        (m.choose k : ℚ) * ((m - k).choose (j - k) : ℚ) *
          p ^ j * (1 - p) ^ (m - j) := by
    intro j hj
    simp only [Finset.mem_Icc] at hj
    have hid : m.choose j * j.choose k = m.choose k * (m - k).choose (j - k) :=
      Nat.choose_mul hj.2 hj.1
    unfold binomPMF
    have : ((m.choose j : ℚ) * (j.choose k : ℚ)) =
        ((m.choose k : ℚ) * ((m - k).choose (j - k) : ℚ)) := by
      exact_mod_cast congrArg (Nat.cast (R := ℚ)) hid
    calc (j.choose k : ℚ) * ((m.choose j : ℚ) * p ^ j * (1 - p) ^ (m - j))
        = ((m.choose j : ℚ) * (j.choose k : ℚ)) * p ^ j * (1 - p) ^ (m - j) :=
          by ring
      _ = ((m.choose k : ℚ) * ((m - k).choose (j - k) : ℚ)) *
            p ^ j * (1 - p) ^ (m - j) := by rw [this]
  rw [Finset.sum_congr rfl hstep]
  rw [show Icc k m = Ico k (m + 1) from (Nat.Ico_succ_right k m).symm,
    Finset.sum_Ico_eq_sum_range]
  have hlen : m + 1 - k = (m - k) + 1 := by omega
  rw [hlen]
  have hterm : ∀ i ∈ range ((m - k) + 1),
      (m.choose k : ℚ) * ((m - k).choose (k + i - k) : ℚ) *
          p ^ (k + i) * (1 - p) ^ (m - (k + i)) =
        (m.choose k : ℚ) * p ^ k * binomPMF (m - k) p i := by
    intro i hi
    simp only [Finset.mem_range] at hi
    have h1 : k + i - k = i := by omega
    have h2 : m - (k + i) = (m - k) - i := by omega
    rw [h1, h2]
    unfold binomPMF
    rw [pow_add]
    ring
  rw [Finset.sum_congr rfl hterm, ← Finset.mul_sum, sum_binomPMF, mul_one]

/-- Union-type tail bound: `P(X ≥ k) ≤ C(m, k) · p^k` for `p ∈ [0, 1]`. -/
theorem binomTail_le {p : ℚ} (hp0 : 0 ≤ p) (hp1 : p ≤ 1) (m k : ℕ) :
    ∑ j ∈ Icc k m, binomPMF m p j ≤ (m.choose k : ℚ) * p ^ k := by
  rcases le_or_lt k m with hkm | hkm
  · calc ∑ j ∈ Icc k m, binomPMF m p j
        ≤ ∑ j ∈ Icc k m, (j.choose k : ℚ) * binomPMF m p j := by
          apply Finset.sum_le_sum
          intro j hj
          simp only [Finset.mem_Icc] at hj
          have hpos : 1 ≤ (j.choose k : ℚ) := by
            exact_mod_cast Nat.succ_le_of_lt (Nat.choose_pos hj.1)
          nlinarith [binomPMF_nonneg hp0 hp1 m j]
      _ = (m.choose k : ℚ) * p ^ k := sum_choose_mul_binomPMF m k p hkm
  · have hIcc : Icc k m = ∅ := Finset.Icc_eq_empty (by omega)
    rw [hIcc, Finset.sum_empty]
    positivity

/-! Facts about the banker's rounding used by the evaluators. -/

/-- A small nonnegative value rounds to the integer `0`. -/
theorem pyRound_eq_zero {q : ℚ} (h0 : 0 ≤ q) (h1 : q < 1/2) :
    pyRound q = 0 := by
  have hfl : ⌊q⌋ = 0 := by
    rw [Int.floor_eq_zero_iff]
    constructor
    · exact h0
    · linarith
  unfold pyRound
  rw [hfl]
  rw [if_pos (by push_cast; linarith)]

/-- A probability below half of the last kept decimal rounds to `0.0` at six
decimal places. -/
theorem roundTo_six_eq_zero {q : ℚ} (h0 : 0 ≤ q) (h1 : q < 1 / 2000000) :
    roundTo 6 q = 0 := by
  unfold roundTo
  rw [pyRound_eq_zero (by positivity) (by norm_num at h1 ⊢; linarith)]
  norm_num

/-- `pyRound` is a nearest integer: its distance to the argument is at most
a half. -/
theorem pyRound_dist (q : ℚ) : |q - (pyRound q : ℚ)| ≤ 1/2 := by
  have hle : (⌊q⌋ : ℚ) ≤ q := Int.floor_le q
  have hlt : q < (⌊q⌋ : ℚ) + 1 := Int.lt_floor_add_one q
  unfold pyRound
  split
  · rw [abs_of_nonneg (by linarith)]
    linarith
  · split
    · push_cast
      rw [abs_of_nonpos (by linarith)]
      linarith
    · split
      · rw [abs_of_nonneg (by linarith)]
        linarith
      · push_cast
        rw [abs_of_nonpos (by linarith)]
        linarith

/-- Ties are broken towards the even neighbour: whenever the rounded value
sits at distance exactly one half, it is even. -/
theorem pyRound_tie_even (q : ℚ) :
    |q - (pyRound q : ℚ)| = 1/2 → Even (pyRound q) := by
  intro htie
  have hle : (⌊q⌋ : ℚ) ≤ q := Int.floor_le q
  have hlt : q < (⌊q⌋ : ℚ) + 1 := Int.lt_floor_add_one q
  unfold pyRound at htie ⊢
  split at htie
  · rw [abs_of_nonneg (by linarith)] at htie
    rename_i hbr
    exfalso
    exact absurd htie (by linarith)
  · split at htie
    · rename_i hbr1 hbr2
      push_cast at htie
      rw [abs_of_nonpos (by linarith)] at htie
      exfalso
      have := htie
      linarith
    · split at htie
      · rename_i hbr1 hbr2 hev
        rw [if_neg hbr1, if_neg hbr2, if_pos hev]
        exact hev
      · rename_i hbr1 hbr2 hev
        rw [if_neg hbr1, if_neg hbr2, if_neg hev]
        exact Int.even_add_one.mpr hev

/-- A threshold below one is always met: `B(count, p, k) = 1` for `k < 1`
(the CDF is evaluated at a negative cut). -/
theorem B_eq_one_of_lt_one (count p : ℚ) {k : ℚ} (hk : k < 1) :
    B count p k = 1 := by
  unfold B binomCDF
  rw [if_pos (by rw [Int.floor_lt]; push_cast; linarith)]
  ring

/-- With success probability zero, any positive threshold fails:
`B(count, 0, k) = 0` for natural `k ≥ 1`. -/
theorem B_p_zero (count : ℚ) {k : ℕ} (hk : 1 ≤ k) :
    B count 0 (k : ℚ) = 0 := by
  unfold B binomCDF
  have hfl : ⌊(k : ℚ) - 1⌋ = (k : ℤ) - 1 := by
    rw [show ((k : ℚ) - 1 : ℚ) = ((k : ℤ) : ℚ) - ((1 : ℤ) : ℚ) by push_cast; ring,
      ← Int.cast_sub, Int.floor_intCast]
  rw [hfl, if_neg (by omega)]
  have hsum : ∑ j ∈ range (((k : ℤ) - 1).toNat + 1),
      binomPMF (Int.toNat ⌊count⌋) 0 j = 1 := by
    rw [Finset.sum_eq_single_of_mem 0 (Finset.mem_range.mpr (by omega))]
    · unfold binomPMF
      norm_num
    · intro b _ hb
      unfold binomPMF
      rw [zero_pow hb]
      ring
  rw [hsum]
  ring

/-- `round(0.0, d) = 0.0`. -/
theorem roundTo_zero (d : ℕ) : roundTo d 0 = 0 := by
  unfold roundTo pyRound
  norm_num

/-- C1.  The one-step shared equation-2.3″ probability `p′` is the claimed
nested finite sum — outer index `s` over `[0, k_m)`, inner indices
`i, j, m, l` with exclusive bounds `k_m-s`, `k_m-i-s`, `k_m-i-j-s`,
`k_m-i-j-m-s`, levels weighted by point masses at the derived counts, and
innermost term `T(r^,p,l) · B(r#,p,k_m-s-i-j-l-m) · (1 - B(…))` — and the
evaluator answers `round(B(n, p′, 2r/3), 6) == 1.0`. -/
theorem one_step_shared_2_3_matches_claim (n : ℕ) (p : ℚ) (k_m r : ℕ) :
    eq_2_3_ddash_p_dash_shared n p k_m r =
      (∑ s ∈ range k_m, T (r_sharp_of n r : ℚ) p s *
        (∑ i ∈ range (k_m - s), T (r_caret_of n r : ℚ) p i *
          (∑ j ∈ range (k_m - i - s), T (r_caret_of n r : ℚ) p j *
            (∑ m ∈ range (k_m - i - j - s), T (r_ddash_of n r : ℚ) p m *
              (∑ l ∈ range (k_m - i - j - m - s),
                T (r_caret_of n r : ℚ) p l *
                  (B (r_sharp_of n r : ℚ) p
                      ((k_m : ℚ) - s - i - j - l - m) *
                    (1 - B (r_sharp_of n r : ℚ) p
                      ((k_m : ℚ) - s - i - j - l - m)))))))) ∧
    check_eq_2_3_ddash n p k_m r true =
      decide (roundTo 6 (B (n : ℚ) (eq_2_3_ddash_p_dash_shared n p k_m r)
        (2 * (r : ℚ) / 3)) = 1) :=
  ⟨rfl, rfl⟩

/-- C2.  The two-step shared equation-2.3′ evaluator computes `p′` as the
claimed four-level sum with exclusive bounds `k+1`, `k-i+1`, `k-i-j+1`,
`k-i-j-l+1`, point-mass weights at every level, and an innermost product of
three survival factors (the third complemented) with thresholds `k-i-j-m`,
`k-j-l-m`, `k-i-l-m` at count `r - 2r′ + r″`; the verdict is
`round(B(n, p′, 2r/3), 5) == 1.0`. -/
theorem two_step_shared_2_3_matches_claim (n : ℕ) (p : ℚ) (k r : ℕ) :
    eq_2_3_dash_p_dash n p k r =
      (∑ i ∈ range (k + 1), T (r_caret_of n r : ℚ) p i *
        (∑ j ∈ range (k - i + 1), T (r_caret_of n r : ℚ) p j *
          (∑ l ∈ range (k - i - j + 1), T (r_caret_of n r : ℚ) p l *
            (∑ m ∈ range (k - i - j - l + 1), T (r_ddash_of n r : ℚ) p m *
              (B ((r : ℚ) - 2 * (r_dash_of n r : ℚ) + (r_ddash_of n r : ℚ))
                  p ((k : ℚ) - i - j - m) *
                B ((r : ℚ) - 2 * (r_dash_of n r : ℚ) + (r_ddash_of n r : ℚ))
                  p ((k : ℚ) - j - l - m) *
                (1 - B ((r : ℚ) - 2 * (r_dash_of n r : ℚ) +
                  (r_ddash_of n r : ℚ)) p ((k : ℚ) - i - l - m))))))) ∧
    check_eq_2_3_dash n p k r =
      decide (roundTo 5 (B (n : ℚ) (eq_2_3_dash_p_dash n p k r)
        (2 * (r : ℚ) / 3)) = 1) :=
  ⟨rfl, rfl⟩

/-- C9.  The two-step shared evaluators for equations 2.4′ and 2.5′ agree
with the two-step disjoint evaluators for 2.4 and 2.5 on all arguments:
the source delegates unchanged. -/
theorem shared_2_4_2_5_delegate (n : ℕ) (p : ℚ) (k r : ℕ) :
    check_eq_2_4_dash n p k r = check_eq_2_4 n p k r ∧
    check_eq_2_5_dash n p k r = check_eq_2_5 n p k r :=
  ⟨rfl, rfl⟩

/-- C4.  Every evaluator whose verdict is an equality test against `0.0` or
`1.0` first rounds the computed probability — to six decimal places
everywhere except the two-step shared 2.3′, which rounds to five — and no
such evaluator compares an unrounded probability. -/
theorem rounded_equality_verdicts (n : ℕ) (p : ℚ) (k r t : ℕ) :
    check_eq_2_2 n p k r = decide (roundTo 6 (eq_2_2_expect n p k r) = 0) ∧
    check_eq_2_3 n p k r = decide (roundTo 6 (eq_2_3_expect n p k r) = 1) ∧
    check_eq_2_4 n p k r = decide (roundTo 6 (eq_2_4_Y n p k r) = 1) ∧
    check_eq_2_5 n p k r = decide (roundTo 6 (eq_2_5_expect n p k r) = 0) ∧
    check_eq_2_6 n p k r t =
      decide (roundTo 6 (eq_2_6_approx n p k r t) = 0) ∧
    check_eq_2_2_ddash n p k r =
      decide (roundTo 6 (eq_2_2_ddash_expect n p k r) = 0) ∧
    (∀ cs : Bool, check_eq_2_3_ddash n p k r cs =
      decide (roundTo 6 (eq_2_3_ddash_expect n p k r cs) = 1)) ∧
    check_eq_2_4_ddash n p k r =
      decide (roundTo 6 (eq_2_4_ddash_Y n p k r) = 1) ∧
    check_eq_2_5_ddash n p k r =
      decide (roundTo 6 (eq_2_5_expect n p k r) = 0) ∧
    check_eq_2_6_ddash n p k r =
      decide (roundTo 6 (eq_2_6_ddash_expect n p k r) = 0) ∧
    check_eq_2_2_dash n p k r =
      decide (roundTo 6 (eq_2_2_dash_expect n p k r) = 0) ∧
    check_eq_2_3_dash n p k r =
      decide (roundTo 5 (eq_2_3_dash_expect n p k r) = 1) ∧
    check_eq_2_6_dash n p k r t =
      decide (roundTo 6 (eq_2_6_dash_expect n p k r) = 0) :=
  ⟨rfl, rfl, rfl, rfl, rfl, rfl, fun _ => rfl, rfl, rfl, rfl, rfl, rfl, rfl⟩

/-- The acceptance policy the spec attributes to every equation-2.1-style
evaluator: below the `10^6` crossover, the `expect ± 2·sqrt(expect)` band;
at or above it, comparison of the two leading decimal characters. -/
def crossover_policy (n : ℕ) (expect : ℚ) (r : ℕ) : Bool :=
  if n < 10 ^ 6 then sqrt_band expect r
  else compare_first_x_digits expect r 2

/-- C3 (amended).  The two-step disjoint 2.1 and one-step shared 2.1″
evaluators follow the crossover policy on their own `expect`; the two-step
shared 2.1′ evaluator does not — it accepts `r` within the multiplicative
band `expect ± expect·(c_1 - 1)` with `expect = round(n·p′, 6)`, with no
crossover and no digit comparison. -/
theorem eq_2_1_family_policies (n : ℕ) (p : ℚ) (k r : ℕ) (c_1 : ℚ) :
    check_eq_2_1 n p k r = crossover_policy n (eq_2_1_expect n p k r) r ∧
    check_eq_2_1_ddash n p k r =
      crossover_policy n (eq_2_1_ddash_expect n p k r) r ∧
    check_eq_2_1_dash n p k r c_1 =
      decide ((r : ℚ) ≥ eq_2_1_dash_expect n p k r -
          eq_2_1_dash_expect n p k r * (c_1 - 1) ∧
        (r : ℚ) ≤ eq_2_1_dash_expect n p k r +
          eq_2_1_dash_expect n p k r * (c_1 - 1)) :=
  ⟨rfl, rfl, rfl⟩

/-- C3 (counterexample).  At `n = 10000`, `p = 1/2`, `k = 0`, `r = 9700`,
`c_1 = 1.0999`, the two-step shared 2.1′ evaluator accepts, while the
crossover policy the claim ascribes to it (here the
`expect ± 2·sqrt(expect)` branch, since `n < 10^6`) rejects. -/
theorem eq_2_1_dash_policy_counterexample :
    check_eq_2_1_dash 10000 (1/2) 0 9700 (10999/10000) = true ∧
    crossover_policy 10000 (eq_2_1_dash_expect 10000 (1/2) 0 9700)
      9700 = false := by
  have hrd : r_dash_of 10000 9700 = 9409 := by
    unfold r_dash_of
    norm_num [pyRound]
  have hpd : eq_2_1_dash_p_dash 10000 (1/2) 0 9700 = 1 := by
    unfold eq_2_1_dash_p_dash
    rw [hrd, Finset.range_zero, Finset.sum_empty,
      B_eq_one_of_lt_one _ _ (by norm_num)]
    norm_num
  have he : eq_2_1_dash_expect 10000 (1/2) 0 9700 = 10000 := by
    unfold eq_2_1_dash_expect
    rw [hpd]
    norm_num [roundTo, pyRound]
  constructor
  · unfold check_eq_2_1_dash
    rw [he]
    norm_num
  · unfold crossover_policy sqrt_band
    rw [he, if_pos (by norm_num)]
    norm_num

/-- C5.  The derived quantities are exactly `r′ = round(r²/n)`,
`r″ = round(r³/n²)`, `r^ = r′ - r″`, `r# = r - 2r′ + r″`, where `round`
is nearest-integer rounding with ties broken to the even neighbour. -/
theorem derived_parameters_claim (n r : ℕ) (q : ℚ) (_hn : 1 ≤ n) :
    r_dash_of n r = pyRound ((r : ℚ) ^ 2 / (n : ℚ)) ∧
    r_ddash_of n r = pyRound ((r : ℚ) ^ 3 / (n : ℚ) ^ 2) ∧
    r_caret_of n r = r_dash_of n r - r_ddash_of n r ∧
    r_sharp_of n r = (r : ℤ) - 2 * r_dash_of n r + r_ddash_of n r ∧
    |q - (pyRound q : ℚ)| ≤ 1/2 ∧
    (|q - (pyRound q : ℚ)| = 1/2 → Even (pyRound q)) :=
  ⟨rfl, rfl, rfl, rfl, pyRound_dist q, pyRound_tie_even q⟩

/-- Witness for `derived_parameters_claim` at `n = 4`, `r = 5`, `q = 7/2`
(a tie, rounded to the even integer `4`). -/
theorem derived_parameters_claim_witness :
    1 ≤ 4 ∧
    (r_dash_of 4 5 = pyRound (((5 : ℕ) : ℚ) ^ 2 / ((4 : ℕ) : ℚ)) ∧
     r_ddash_of 4 5 = pyRound (((5 : ℕ) : ℚ) ^ 3 / ((4 : ℕ) : ℚ) ^ 2) ∧
     r_caret_of 4 5 = r_dash_of 4 5 - r_ddash_of 4 5 ∧
     r_sharp_of 4 5 = ((5 : ℕ) : ℤ) - 2 * r_dash_of 4 5 + r_ddash_of 4 5 ∧
     |(7/2 : ℚ) - (pyRound (7/2 : ℚ) : ℚ)| ≤ 1/2 ∧
     (|(7/2 : ℚ) - (pyRound (7/2 : ℚ) : ℚ)| = 1/2 →
       Even (pyRound (7/2 : ℚ)))) :=
  ⟨by decide, derived_parameters_claim 4 5 (7/2) (by decide)⟩

/-- C6 (counterexample).  At `p = 0` — a value the claim says must raise
`InvalidParameterError` — the evaluator for equation 2.4 returns the
ordinary boolean `false`: the source performs no parameter validation and
defines no such exception. -/
theorem no_invalid_parameter_error_counterexample :
    check_eq_2_4 10 0 1 5 = false := by
  have hY : eq_2_4_Y 10 0 1 5 = 0 := by
    unfold eq_2_4_Y
    rw [zero_mul, B_p_zero _ (le_refl 1)]
  unfold check_eq_2_4
  rw [hY, roundTo_zero, decide_eq_false_iff_not]
  norm_num

/-- C6 (amended).  The evaluators are total functions with no error path:
at the supposedly invalid `p = 0` (and any `k ≥ 1`), equation 2.4's
evaluator returns `false` normally instead of raising. -/
theorem eq_2_4_total_at_p_zero (n k r : ℕ) (hk : 1 ≤ k) :
    check_eq_2_4 n 0 k r = false := by
  have hY : eq_2_4_Y n 0 k r = 0 := by
    unfold eq_2_4_Y
    rw [zero_mul, B_p_zero _ hk]
  unfold check_eq_2_4
  rw [hY, roundTo_zero, decide_eq_false_iff_not]
  norm_num

/-- Witness for `eq_2_4_total_at_p_zero` at `n = 12`, `k = 2`, `r = 7`. -/
theorem eq_2_4_total_at_p_zero_witness :
    1 ≤ 2 ∧ check_eq_2_4 12 0 2 7 = false :=
  ⟨by decide, eq_2_4_total_at_p_zero 12 2 7 (by decide)⟩

/-- C7.  On valid arguments, `B` is the survival probability
`P(X ≥ threshold)` of `X ~ Binomial(count, p)` — the upper tail of the
point-mass sum, equivalently `1 - CDF(threshold - 1)` — and in particular
`B(count, p, 0) = 1`. -/
theorem survival_probability_claim (c t : ℕ) (p : ℚ)
    (_hp0 : 0 ≤ p) (_hp1 : p ≤ 1) :
    B (c : ℚ) p (t : ℚ) = ∑ j ∈ Icc t c, binomPMF c p j ∧
    B (c : ℚ) p 0 = 1 := by
  refine ⟨B_nat_eq_tail c t p, ?_⟩
  have h := B_nat_eq_tail c 0 p
  rw [Nat.cast_zero] at h
  rw [h, ← Nat.Ico_succ_right, ← Finset.range_eq_Ico]
  exact sum_binomPMF c p

/-- Witness for `survival_probability_claim` at `count = 2`, `p = 1/2`,
`threshold = 1`. -/
theorem survival_probability_claim_witness :
    (0 : ℚ) ≤ 1/2 ∧ (1/2 : ℚ) ≤ 1 ∧
    (B ((2 : ℕ) : ℚ) (1/2) ((1 : ℕ) : ℚ) =
        ∑ j ∈ Icc 1 2, binomPMF 2 (1/2) j ∧
      B ((2 : ℕ) : ℚ) (1/2) 0 = 1) :=
  ⟨by norm_num, by norm_num,
    survival_probability_claim 2 1 (1/2) (by norm_num) (by norm_num)⟩

/-- C10.  Every evaluator and primitive is a deterministic pure function of
its arguments: identical arguments produce identical results. -/
theorem evaluators_deterministic (n n' : ℕ) (p p' : ℚ) (k k' r r' t t' : ℕ)
    (c c' : ℚ) (cs cs' : Bool) (x x' y y' z z' : ℚ) (j j' : ℕ)
    (hn : n = n') (hp : p = p') (hk : k = k') (hr : r = r') (ht : t = t')
    (hc : c = c') (hcs : cs = cs') (hx : x = x') (hy : y = y') (hz : z = z')
    (hj : j = j') :
    B x y z = B x' y' z' ∧
    T x y j = T x' y' j' ∧
    check_eq_2_1 n p k r = check_eq_2_1 n' p' k' r' ∧
    check_eq_2_2 n p k r = check_eq_2_2 n' p' k' r' ∧
    check_eq_2_3 n p k r = check_eq_2_3 n' p' k' r' ∧
    check_eq_2_4 n p k r = check_eq_2_4 n' p' k' r' ∧
    check_eq_2_5 n p k r = check_eq_2_5 n' p' k' r' ∧
    check_eq_2_6 n p k r t = check_eq_2_6 n' p' k' r' t' ∧
    check_eq_2_1_ddash n p k r = check_eq_2_1_ddash n' p' k' r' ∧
    check_eq_2_2_ddash n p k r = check_eq_2_2_ddash n' p' k' r' ∧
    check_eq_2_3_ddash n p k r cs = check_eq_2_3_ddash n' p' k' r' cs' ∧
    check_eq_2_4_ddash n p k r = check_eq_2_4_ddash n' p' k' r' ∧
    check_eq_2_5_ddash n p k r = check_eq_2_5_ddash n' p' k' r' ∧
    check_eq_2_6_ddash n p k r = check_eq_2_6_ddash n' p' k' r' ∧
    check_eq_2_1_dash n p k r c = check_eq_2_1_dash n' p' k' r' c' ∧
    check_eq_2_2_dash n p k r = check_eq_2_2_dash n' p' k' r' ∧
    check_eq_2_3_dash n p k r = check_eq_2_3_dash n' p' k' r' ∧
    check_eq_2_4_dash n p k r = check_eq_2_4_dash n' p' k' r' ∧
    check_eq_2_5_dash n p k r = check_eq_2_5_dash n' p' k' r' ∧
    check_eq_2_6_dash n p k r t = check_eq_2_6_dash n' p' k' r' t' := by
  subst hn hp hk hr ht hc hcs hx hy hz hj
  exact ⟨rfl, rfl, rfl, rfl, rfl, rfl, rfl, rfl, rfl, rfl, rfl, rfl, rfl,
    rfl, rfl, rfl, rfl, rfl, rfl, rfl⟩

/-- Witness for `evaluators_deterministic`: two invocations of
`check_eq_2_1` with identical concrete arguments agree. -/
theorem evaluators_deterministic_witness :
    check_eq_2_1 7 (1/3) 2 4 = check_eq_2_1 7 (1/3) 2 4 :=
  (evaluators_deterministic 7 7 (1/3) (1/3) 2 2 4 4 1 1 (1/2) (1/2)
    true true 5 5 6 6 7 7 3 3 rfl rfl rfl rfl rfl rfl rfl rfl rfl rfl
    rfl).2.2.1

/-- C8.  In the concrete scenario `n = 10000`, `p = 0.001`, `k = 3`,
`r = 50`, the two-step disjoint 2.2 evaluator computes
`p′ = B(25, p, 3) · B(50, p, 3)` and `expect = B(10000, p′, 5)`,
the rounded expectation `round(expect, 6)` is `0.0`, and the evaluator
returns `true`. -/
theorem eq_2_2_concrete_scenario :
    eq_2_2_expect 10000 (1/1000) 3 50 =
      B 10000 (B 25 (1/1000) 3 * B 50 (1/1000) 3) 5 ∧
    roundTo 6 (eq_2_2_expect 10000 (1/1000) 3 50) = 0 ∧
    check_eq_2_2 10000 (1/1000) 3 50 = true := by
  have hb25_tail : B (25 : ℚ) (1/1000) (3 : ℚ) =
      ∑ j ∈ Icc 3 25, binomPMF 25 (1/1000) j := by
    have h := B_nat_eq_tail 25 3 (1/1000)
    push_cast at h
    exact h
  have hb50_tail : B (50 : ℚ) (1/1000) (3 : ℚ) =
      ∑ j ∈ Icc 3 50, binomPMF 50 (1/1000) j := by
    have h := B_nat_eq_tail 50 3 (1/1000)
    push_cast at h
    exact h
  have hb25_le : B (25 : ℚ) (1/1000) (3 : ℚ) ≤ 15625/10^9 := by
    rw [hb25_tail]
    calc ∑ j ∈ Icc 3 25, binomPMF 25 (1/1000) j
        ≤ (Nat.choose 25 3 : ℚ) * (1/1000) ^ 3 :=
          binomTail_le (by norm_num) (by norm_num) 25 3
      _ ≤ 15625 * (1/1000) ^ 3 := by
          apply mul_le_mul_of_nonneg_right _ (by positivity)
          exact_mod_cast (Nat.choose_le_pow 25 3).trans (le_of_eq (by norm_num))
      _ = 15625/10^9 := by norm_num
  have hb50_le : B (50 : ℚ) (1/1000) (3 : ℚ) ≤ 125000/10^9 := by
    rw [hb50_tail]
    calc ∑ j ∈ Icc 3 50, binomPMF 50 (1/1000) j
        ≤ (Nat.choose 50 3 : ℚ) * (1/1000) ^ 3 :=
          binomTail_le (by norm_num) (by norm_num) 50 3
      _ ≤ 125000 * (1/1000) ^ 3 := by
          apply mul_le_mul_of_nonneg_right _ (by positivity)
          exact_mod_cast (Nat.choose_le_pow 50 3).trans (le_of_eq (by norm_num))
      _ = 125000/10^9 := by norm_num
  have hb25_0 : 0 ≤ B (25 : ℚ) (1/1000) (3 : ℚ) :=
    B_nonneg (by norm_num) (by norm_num) _ _
  have hb50_0 : 0 ≤ B (50 : ℚ) (1/1000) (3 : ℚ) :=
    B_nonneg (by norm_num) (by norm_num) _ _
  have hb25_1 : B (25 : ℚ) (1/1000) (3 : ℚ) ≤ 1 :=
    B_le_one (by norm_num) (by norm_num) _ _
  have hb50_1 : B (50 : ℚ) (1/1000) (3 : ℚ) ≤ 1 :=
    B_le_one (by norm_num) (by norm_num) _ _
  have hpd0 : 0 ≤ B (25 : ℚ) (1/1000) (3 : ℚ) * B (50 : ℚ) (1/1000) (3 : ℚ) :=
    mul_nonneg hb25_0 hb50_0
  have hpd1 : B (25 : ℚ) (1/1000) (3 : ℚ) * B (50 : ℚ) (1/1000) (3 : ℚ) ≤ 1 :=
    by nlinarith
  have hpd_le : B (25 : ℚ) (1/1000) (3 : ℚ) * B (50 : ℚ) (1/1000) (3 : ℚ) ≤
      1953125000/10^18 := by
    calc B (25 : ℚ) (1/1000) (3 : ℚ) * B (50 : ℚ) (1/1000) (3 : ℚ)
        ≤ (15625/10^9) * (125000/10^9) :=
          mul_le_mul hb25_le hb50_le hb50_0 (by norm_num)
      _ = 1953125000/10^18 := by norm_num
  have htail : B (10000 : ℚ)
      (B (25 : ℚ) (1/1000) (3 : ℚ) * B (50 : ℚ) (1/1000) (3 : ℚ)) (5 : ℚ) =
      ∑ j ∈ Icc 5 10000, binomPMF 10000
        (B (25 : ℚ) (1/1000) (3 : ℚ) * B (50 : ℚ) (1/1000) (3 : ℚ)) j := by
    have h := B_nat_eq_tail 10000 5
      (B (25 : ℚ) (1/1000) (3 : ℚ) * B (50 : ℚ) (1/1000) (3 : ℚ))
    push_cast at h
    exact h
  have hstep1 : ∑ j ∈ Icc 5 10000, binomPMF 10000
        (B (25 : ℚ) (1/1000) (3 : ℚ) * B (50 : ℚ) (1/1000) (3 : ℚ)) j ≤
      (Nat.choose 10000 5 : ℚ) *
        (B (25 : ℚ) (1/1000) (3 : ℚ) * B (50 : ℚ) (1/1000) (3 : ℚ)) ^ 5 :=
    binomTail_le hpd0 hpd1 10000 5
  have hch : (Nat.choose 10000 5 : ℚ) ≤ 10 ^ 20 := by
    have h1 : (Nat.choose 10000 5 : ℚ) ≤ ((10000 ^ 5 : ℕ) : ℚ) := by
      exact_mod_cast Nat.choose_le_pow 10000 5
    have h2 : ((10000 ^ 5 : ℕ) : ℚ) = 10 ^ 20 := by norm_num
    linarith
  have hstep2 : (Nat.choose 10000 5 : ℚ) *
        (B (25 : ℚ) (1/1000) (3 : ℚ) * B (50 : ℚ) (1/1000) (3 : ℚ)) ^ 5 ≤
      10 ^ 20 * (1953125000/10^18) ^ 5 :=
    mul_le_mul hch (pow_le_pow_left₀ hpd0 hpd_le 5) (by positivity)
      (by norm_num)
  have hfin : B (10000 : ℚ)
      (B (25 : ℚ) (1/1000) (3 : ℚ) * B (50 : ℚ) (1/1000) (3 : ℚ)) (5 : ℚ) <
      1/2000000 := by
    rw [htail]
    have hnum : (10 : ℚ) ^ 20 * (1953125000/10^18) ^ 5 < 1/2000000 := by
      norm_num
    linarith
  have h0 : 0 ≤ B (10000 : ℚ)
      (B (25 : ℚ) (1/1000) (3 : ℚ) * B (50 : ℚ) (1/1000) (3 : ℚ)) (5 : ℚ) :=
    B_nonneg hpd0 hpd1 _ _
  have hround := roundTo_six_eq_zero h0 hfin
  have hform : eq_2_2_expect 10000 (1/1000) 3 50 =
      B (10000 : ℚ)
        (B (25 : ℚ) (1/1000) (3 : ℚ) * B (50 : ℚ) (1/1000) (3 : ℚ))
        (5 : ℚ) := by
    unfold eq_2_2_expect
    norm_num
  refine ⟨hform, ?_, ?_⟩
  · rw [hform]
    exact hround
  · unfold check_eq_2_2
    rw [hform, hround, decide_eq_true_eq]
